import Mathlib

/-!
Verification of the TPC-C transaction engine `runtime/tpcc/pardisgen/TpccGenSC.cpp`.

The C++ program keeps nine tables (warehouse, district, customer, item, stock,
order, new_order, order_line, history), each a `MultiHashMap` over record
structs `SEntry...`, and runs five transaction procedures against them
(`NewOrderTx`, `PaymentTx`, `OrderStatusTx`, `DeliveryTx`, `StockLevelTx`).

Shallow embedding conventions:
* C++ `int` and `date` become `Int` (the transaction logic never overflows
  32 bits on the fields involved, and no claim concerns overflow).
* C++ `double` becomes `ℚ`; all arithmetic performed by the transactions on
  doubles (`+`, `*`, comparisons against other table fields) is exact in the
  reachable value range, so `ℚ` models it faithfully.
* `PString` becomes `String`.
* Each table is a `List` of records; the store's `get` through an index is
  `List.find?` with the probed key fields of that index, mutation through a
  returned row pointer is `updateFirst`, `add` appends, `del` is
  `deleteFirst`, and an index `slice` is `List.filter`/`List.map` over the
  rows matching the sliced key.  The container behaviour itself
  (`mmap.hpp`) is not part of the sources; it is modelled from the spec
  (§4.2–4.3): `get` returns the first matching row, a `TreeIndex` `get`
  returns the row that is minimal in the index ordering, `slice` visits
  every matching row.
* A dereference of a `get` result that the C++ performs without a null
  check becomes a bind in the `Option` monad: `none` marks the undefined
  behaviour of dereferencing a null pointer.
-/

/-- C++ `date` (a 64-bit timestamp) modelled as `Int`. -/
abbrev TDate := Int

/-- Row of the `item` table: `(i_id, i_im_id, i_name, i_price, i_data)`. -/
structure SEntry5_IISDS where
  _1 : Int
  _2 : Int
  _3 : String
  _4 : ℚ
  _5 : String
deriving DecidableEq, Repr

/-- Row of the `district` table: `(d_id, d_w_id, d_name, 6 address fields…,
d_tax (_9), d_ytd (_10), d_next_o_id (_11))`. -/
structure SEntry11_IISSSSSSDDI where
  _1 : Int
  _2 : Int
  _3 : String
  _4 : String
  _5 : String
  _6 : String
  _7 : String
  _8 : String
  _9 : ℚ
  _10 : ℚ
  _11 : Int
deriving DecidableEq, Repr

/-- Row of the `customer` table: `(c_id, c_d_id, c_w_id, c_first (_4),
c_middle, c_last (_6), address…, c_since (_13), c_credit (_14),
c_credit_lim, c_discount (_16), c_balance (_17), c_ytd_payment (_18),
c_payment_cnt (_19), c_delivery_cnt (_20), c_data (_21))`. -/
structure SEntry21_IIISSSSSSSSSTSDDDDIIS where
  _1 : Int
  _2 : Int
  _3 : Int
  _4 : String
  _5 : String
  _6 : String
  _7 : String
  _8 : String
  _9 : String
  _10 : String
  _11 : String
  _12 : String
  _13 : TDate
  _14 : String
  _15 : ℚ
  _16 : ℚ
  _17 : ℚ
  _18 : ℚ
  _19 : Int
  _20 : Int
  _21 : String
deriving DecidableEq, Repr

/-- Row of the `order` table: `(o_id, o_d_id, o_w_id, o_c_id, o_entry_d,
o_carrier_id (_6), o_ol_cnt (_7), o_all_local (_8))`.  The C++ stores
`o_all_local` as an `int` holding the result of a boolean expression. -/
structure SEntry8_IIIITIIB where
  _1 : Int
  _2 : Int
  _3 : Int
  _4 : Int
  _5 : TDate
  _6 : Int
  _7 : Int
  _8 : Int
deriving DecidableEq, Repr

/-- Row of the `new_order` table: `(no_o_id, no_d_id, no_w_id)`. -/
structure SEntry3_III where
  _1 : Int
  _2 : Int
  _3 : Int
deriving DecidableEq, Repr

/-- Row of the `history` table: `(h_c_id, h_c_d_id, h_c_w_id, h_d_id,
h_w_id, h_date (_6), h_amount (_7), h_data (_8))`. -/
structure SEntry8_IIIIITDS where
  _1 : Int
  _2 : Int
  _3 : Int
  _4 : Int
  _5 : Int
  _6 : TDate
  _7 : ℚ
  _8 : String
deriving DecidableEq, Repr

/-- Row of the `stock` table: `(s_i_id, s_w_id, s_quantity (_3),
s_dist_01 … s_dist_10 (_4…_13), s_ytd, s_order_cnt, s_remote_cnt,
s_data (_17))`. -/
structure SEntry17_IIISSSSSSSSSSIIIS where
  _1 : Int
  _2 : Int
  _3 : Int
  _4 : String
  _5 : String
  _6 : String
  _7 : String
  _8 : String
  _9 : String
  _10 : String
  _11 : String
  _12 : String
  _13 : String
  _14 : Int
  _15 : Int
  _16 : Int
  _17 : String
deriving DecidableEq, Repr

/-- Row of the `order_line` table: `(ol_o_id, ol_d_id, ol_w_id, ol_number,
ol_i_id (_5), ol_supply_w_id (_6), ol_delivery_d (_7), ol_quantity (_8),
ol_amount (_9), ol_dist_info (_10))`. -/
structure SEntry10_IIIIIITIDS where
  _1 : Int
  _2 : Int
  _3 : Int
  _4 : Int
  _5 : Int
  _6 : Int
  _7 : TDate
  _8 : Int
  _9 : ℚ
  _10 : String
deriving DecidableEq, Repr

/-- Row of the `warehouse` table: `(w_id, w_name (_2), address…,
w_tax (_8), w_ytd (_9))`. -/
structure SEntry9_ISSSSSSDD where
  _1 : Int
  _2 : String
  _3 : String
  _4 : String
  _5 : String
  _6 : String
  _7 : String
  _8 : ℚ
  _9 : ℚ
deriving DecidableEq, Repr

/-- The nine table stores (`newOrderTbl`, `historyTbl`, `warehouseTbl`,
`itemTbl`, `orderTbl`, `districtTbl`, `orderLineTbl`, `customerTbl`,
`stockTbl` in the C++). -/
structure TpccState where
  warehouseTbl : List SEntry9_ISSSSSSDD
  districtTbl : List SEntry11_IISSSSSSDDI
  customerTbl : List SEntry21_IIISSSSSSSSSTSDDDDIIS
  itemTbl : List SEntry5_IISDS
  stockTbl : List SEntry17_IIISSSSSSSSSSIIIS
  orderTbl : List SEntry8_IIIITIIB
  newOrderTbl : List SEntry3_III
  orderLineTbl : List SEntry10_IIIIIITIDS
  historyTbl : List SEntry8_IIIIITDS
deriving DecidableEq, Repr

/-- Mutation of the single row returned by an index `get`: rewrite the
first list element satisfying `p` with `f` and keep everything else. -/
def updateFirst (p : α → Bool) (f : α → α) : List α → List α
  | [] => []
  | x :: xs => if p x then f x :: xs else x :: updateFirst p f xs

/-- `del` of a row obtained from an index `get`: remove the first list
element satisfying `p`. -/
def deleteFirst (p : α → Bool) : List α → List α
  | [] => []
  | x :: xs => if p x then xs else x :: deleteFirst p xs

/-- One step of the sorting used to model `std::sort`: insert `x` in front
of the first element `y` with `lt x y`. -/
def insertSorted (lt : α → α → Bool) (x : α) : List α → List α
  | [] => [x]
  | y :: ys => if lt x y then x :: y :: ys else y :: insertSorted lt x ys

/-- Model of `std::sort(v.begin(), v.end(), lt)`: insertion sort with the
strict comparator `lt` (stable; any order consistent with the comparator
is a faithful model since `std::sort` leaves ties unspecified). -/
def sortWith (lt : α → α → Bool) : List α → List α
  | [] => []
  | x :: xs => insertSorted lt x (sortWith lt xs)

/-- `pat` matches at the head of `s` (helper for `strStr`). -/
def headMatch : List Char → List Char → Bool
  | [], _ => true
  | _ :: _, [] => false
  | p :: ps, c :: cs => p == c && headMatch ps cs

/-- C `strstr(s, pat) != NULL`: `pat` occurs as a contiguous substring of
`s` (the C++ only ever tests the result against `NULL`). -/
def strStrL : List Char → List Char → Bool
  | [], pat => pat.isEmpty
  | c :: cs, pat => headMatch pat (c :: cs) || strStrL cs pat

/-- String-level wrapper for `strStrL`. -/
def strContains (s pat : String) : Bool :=
  strStrL s.toList pat.toList

/-- ASCII lower-casing of one character (helper for `strcmpi`). -/
def lowerChar (c : Char) : Char :=
  if 'A' ≤ c && c ≤ 'Z' then Char.ofNat (c.toNat + 32) else c

/-- Modelled from the spec: `strcmpi` from `hpds/pstringops.hpp` (not under
`src/`), the "case-insensitive compare for sorting" of §4.1 — compare the
two byte strings lexicographically after ASCII lower-casing, the shorter
string being smaller (NUL terminates a C string first). -/
def strcmpiL : List Char → List Char → Int
  | [], [] => 0
  | [], _ :: _ => -1
  | _ :: _, [] => 1
  | a :: as, b :: bs =>
    if lowerChar a == lowerChar b then strcmpiL as bs
    else if lowerChar a < lowerChar b then -1 else 1

/-- String-level wrapper for `strcmpiL`. -/
def strcmpi (a b : String) : Int :=
  strcmpiL a.toList b.toList

/-- `INT_MIN`, the `int` sentinel default of the record constructors. -/
def intSentinel : Int := -2147483648

/-- `-1.7976931348623157E308` (= `-DBL_MAX`, written as the exact integer
`-(2^53-1)·2^971` it denotes as a double), the `double` sentinel default
of the record constructors. -/
def dblSentinel : ℚ :=
  ((-179769313486231570814527423731704356798070567525844996598917476803157260780028538760589558632766878171540458953514382464234321326889464182768467546703537516986049910576551282076245490090389328944075868508455133942304583236903222948165808559332123348274797826204144723168738177180919299881250404026184124858368 : Int) : ℚ)

/-- One field comparison of `SEntry8_IIIIITDS_Idx::cmp`: the two sides
agree if either holds the sentinel `sent` or the values are equal. -/
def sentinelEq (sent : α) [BEq α] (a b : α) : Bool :=
  ((a == sent) || (b == sent)) || (a == b)

/-- `SEntry8_IIIIITDS_Idx::cmp` (TpccGenSC.cpp:807–1045), the comparator of
the history table's only index: `0` (equal) when each of the first seven
fields passes `sentinelEq` with its sentinel default (`INT_MIN` for the
ints, `0` for the date, `-DBL_MAX` for the double); the eighth field
(`h_data`) is never read. -/
def SEntry8_IIIIITDS_Idx_cmp (a b : SEntry8_IIIIITDS) : Int :=
  if sentinelEq intSentinel a._1 b._1 &&
     sentinelEq intSentinel a._2 b._2 &&
     sentinelEq intSentinel a._3 b._3 &&
     sentinelEq intSentinel a._4 b._4 &&
     sentinelEq intSentinel a._5 b._5 &&
     sentinelEq (0 : TDate) a._6 b._6 &&
     sentinelEq dblSentinel a._7 b._7
  then 0 else 1

/-- The 20 probed `o_id`s of `StockLevelTx`: the loop runs `x97` from
`next_o_id − 20` while `x97 < next_o_id` (TpccGenSC.cpp:1641–1666). -/
def intRange20 (nOid : Int) : List Int :=
  (List.range 20).map (fun (k : Nat) => nOid - 20 + (k : Int))

/-- `itemTbl.get` through the direct-array primary index keyed on `i_id`
(probe `x8082._1 = i_id`). -/
def itemGet (tbl : List SEntry5_IISDS) (iid : Int) : Option SEntry5_IISDS :=
  tbl.find? (fun e => e._1 == iid)

/-- `warehouseTbl.get` through the direct-array primary index keyed on
`w_id`. -/
def warehouseGet (tbl : List SEntry9_ISSSSSSDD) (w : Int) : Option SEntry9_ISSSSSSDD :=
  tbl.find? (fun e => e._1 == w)

/-- `districtTbl.get` through the direct-array primary index keyed on
`(d_id, d_w_id)`. -/
def districtGet (tbl : List SEntry11_IISSSSSSDDI) (d w : Int) : Option SEntry11_IISSSSSSDDI :=
  tbl.find? (fun e => e._1 == d && e._2 == w)

/-- `customerTbl.get` through the direct-array primary index keyed on
`(c_id, c_d_id, c_w_id)`. -/
def customerGet (tbl : List SEntry21_IIISSSSSSSSSTSDDDDIIS) (c d w : Int) :
    Option SEntry21_IIISSSSSSSSSTSDDDDIIS :=
  tbl.find? (fun e => e._1 == c && e._2 == d && e._3 == w)

/-- `stockTbl.get` through the direct-array primary index keyed on
`(s_i_id, s_w_id)`. -/
def stockGet (tbl : List SEntry17_IIISSSSSSSSSSIIIS) (i w : Int) :
    Option SEntry17_IIISSSSSSSSSSIIIS :=
  tbl.find? (fun e => e._1 == i && e._2 == w)

/-- `orderTbl.get(·, 0)` through the unique hash primary index
`SEntry8_IIIITIIB_Idx123` keyed on `(o_id, o_d_id, o_w_id)`. -/
def orderGet (tbl : List SEntry8_IIIITIIB) (o d w : Int) : Option SEntry8_IIIITIIB :=
  tbl.find? (fun e => e._1 == o && e._2 == d && e._3 == w)

/-- Match of the order_line slice index `SEntry10_IIIIIITIDS_Idx123`
(cmp = 0 iff fields `_1, _2, _3` agree with the probe). -/
def olKey (o d w : Int) (e : SEntry10_IIIIIITIDS) : Bool :=
  e._1 == o && e._2 == d && e._3 == w

/-- `newOrderTbl.get(·, 1)` through the tree index `SEntry3_III_Idx23`
(match on `(no_d_id, no_w_id)`) ordered by `SEntry3_III_Idx23_Ordering`
(by `no_o_id`).  Modelled from the spec (§4.2, mmap.hpp not under `src/`):
a `TreeIndex` `get` returns the matching row minimal in the ordering.
`noMinStep` is the fold step of that minimum: keep the row with the
strictly smaller `no_o_id`. -/
def noMinStep (acc : Option SEntry3_III) (e : SEntry3_III) : Option SEntry3_III :=
  match acc with
  | none => some e
  | some m => if e._1 < m._1 then some e else some m

/-- The tree-index `get` itself: minimum by `no_o_id` over the rows
matching `(no_d_id, no_w_id) = (d, w)` (see `noMinStep` above). -/
def newOrderTreeGet (tbl : List SEntry3_III) (d w : Int) : Option SEntry3_III :=
  (tbl.filter (fun e => e._2 == d && e._3 == w)).foldl noMinStep none

/-- Match of the customer secondary index `SEntry21_..._Idx236`
(cmp = 0 iff fields `_2 = c_d_id`, `_3 = c_w_id`, `_6 = c_last` agree). -/
def custLastKey (cd cw : Int) (clast : String) (e : SEntry21_IIISSSSSSSSSTSDDDDIIS) : Bool :=
  e._2 == cd && e._3 == cw && e._6 == clast

/-- Customer selection of `PaymentTx` (TpccGenSC.cpp:1724–1758; the same
generated block occurs in `OrderStatusTx`): when `byName > 0`, slice the
secondary `(c_d_id, c_w_id, c_last)` index into a vector, compute
`idx = size/2`, decrement `idx` when `size` is even, sort the vector by
`strcmpi` on `c_first`, and take the element at `idx` (an out-of-range
`idx`, only possible with zero matches, is the C++ out-of-bounds
`vector::operator[]` and yields `none`); otherwise `get` by the primary
key `(c_id, c_d_id, c_w_id)`. -/
def paymentFindCustomer (byName : Int) (cw cd cid : Int) (clast : String)
    (tbl : List SEntry21_IIISSSSSSSSSTSDDDDIIS) : Option SEntry21_IIISSSSSSSSSTSDDDDIIS :=
  if byName > 0 then
    let found := tbl.filter (custLastKey cd cw clast)
    let size : Int := (found.length : Int)
    let idx0 : Int := size / 2
    let idx : Int := if size % 2 = 0 then idx0 - 1 else idx0
    let sorted := sortWith (fun c1 c2 => strcmpi c1._4 c2._4 < 0) found
    if idx < 0 then none else sorted.get? idx.toNat
  else
    customerGet tbl cid cd cw

/-- Modelled from the spec: `IntToStrdate` (from `program_base.hpp`, not
under `src/`) renders a date value as some string; the transactions only
splice its result into larger strings, so its exact format is irrelevant
to every claim and it is modelled as decimal rendering. -/
def IntToStrdate (d : TDate) : String := toString d

/-- Decimal digits of `n` left-padded with zeros to width 6 (helper for
the `%f` conversion). -/
def pad6 (n : Nat) : String :=
  let s := toString n
  String.mk (List.replicate (6 - s.length) '0') ++ s

/-- C `printf` `%f` conversion applied to a double, modelled on `ℚ`:
fixed-point notation with exactly six fractional digits, rounding half
away from zero. -/
def formatF (q : ℚ) : String :=
  let scaled : ℚ := q * 1000000
  let m : Int := if scaled ≥ 0 then ⌊scaled + 1/2⌋ else -⌊-scaled + 1/2⌋
  let sign := if m < 0 then "-" else ""
  sign ++ toString (m.natAbs / 1000000) ++ "." ++ pad6 (m.natAbs % 1000000)

/-- The 500-byte `c_data` string built by `PaymentTx` for a bad-credit
customer: `snprintf(..., 501, "%d %d %d %d %d $%f %s | %s", c_id, c_d_id,
c_w_id, d_id, w_id, h_amount, IntToStrdate(date), old_c_data)`
(TpccGenSC.cpp:1766), i.e. the formatted string truncated to 500 bytes. -/
def paymentCData (cid cd cw d w : Int) (h : ℚ) (dateStr old : String) : String :=
  String.take (toString cid ++ " " ++ toString cd ++ " " ++ toString cw ++ " " ++
    toString d ++ " " ++ toString w ++ " $" ++ formatF h ++ " " ++ dateStr ++
    " | " ++ old) 500

/-- The 24-byte `h_data` string of `PaymentTx`:
`snprintf(..., 25, "%.10s    %.10s", w_name, d_name)` (TpccGenSC.cpp:1777). -/
def paymentHData (wname dname : String) : String :=
  String.take (String.take wname 10 ++ "    " ++ String.take dname 10) 24

/-- `PaymentTx` (TpccGenSC.cpp:1714–1783).  Arguments follow the C++ ones
that matter: `(ts, w, d, byName, cw, cd, cid, clast, h)` for
`(x189, x191, x192, x193, x194, x195, x196, x197, x198)`.
Steps: warehouse `w_ytd += h`; district `d_ytd += h`; select the customer;
if its `c_credit` contains `"BC"` rewrite `c_data` and add `h` to
`c_balance`, else only add `h` to `c_balance`; append a history row. -/
def PaymentTx (ts : TDate) (w d byName cw cd cid : Int) (clast : String) (h : ℚ)
    (s : TpccState) : Option TpccState := do
  let wh ← warehouseGet s.warehouseTbl w
  let warehouseTbl' := updateFirst (fun e => e._1 == w)
    (fun e => { e with _9 := e._9 + h }) s.warehouseTbl
  let dist ← districtGet s.districtTbl d w
  let districtTbl' := updateFirst (fun e => e._1 == d && e._2 == w)
    (fun e => { e with _10 := e._10 + h }) s.districtTbl
  let cust ← paymentFindCustomer byName cw cd cid clast s.customerTbl
  let newCust :=
    if strContains cust._14 "BC" then
      { cust with
        _17 := cust._17 + h
        _21 := paymentCData cust._1 cd cw d w h (IntToStrdate ts) cust._21 }
    else
      { cust with _17 := cust._17 + h }
  let customerTbl' := updateFirst
    (fun e => e._1 == cust._1 && e._2 == cust._2 && e._3 == cust._3)
    (fun _ => newCust) s.customerTbl
  let hRow : SEntry8_IIIIITDS :=
    ⟨cust._1, cd, cw, d, w, ts, h, paymentHData wh._2 dist._3⟩
  return { s with
    warehouseTbl := warehouseTbl'
    districtTbl := districtTbl'
    customerTbl := customerTbl'
    historyTbl := s.historyTbl ++ [hRow] }

/-- The `ol_amount` sum accumulated by the order_line slice of
`DeliveryTx` (`x51`, TpccGenSC.cpp:1604–1617): fold of `+ ol_amount`
starting from `0.0`. -/
def olAmountSum (l : List SEntry10_IIIIIITIDS) : ℚ :=
  l.foldl (fun a r => a + r._9) 0

/-- One iteration of the district loop of `DeliveryTx`
(TpccGenSC.cpp:1586–1631), returning the new state and the value recorded
in `orderIDs[d-1]`: probe the new_order tree index for `(d, w)`; if a row
is found, delete it, set the matching order's `o_carrier_id`, stamp
`ol_delivery_d` on and sum `ol_amount` over the matching order lines, and
add the sum to the order's customer's `_17` and `1` to its `_20`;
otherwise record `0` and change nothing. -/
def deliverDistrict (ts : TDate) (w carrier d : Int) (s : TpccState) :
    Option (TpccState × Int) :=
  match newOrderTreeGet s.newOrderTbl d w with
  | none => some (s, 0)
  | some noRow => do
    let oid := noRow._1
    let newOrderTbl' := deleteFirst (fun e => e == noRow) s.newOrderTbl
    let ord ← orderGet s.orderTbl oid d w
    let cid := ord._4
    let orderTbl' := updateFirst (fun e => e._1 == oid && e._2 == d && e._3 == w)
      (fun e => { e with _6 := carrier }) s.orderTbl
    let amtSum := olAmountSum (s.orderLineTbl.filter (olKey oid d w))
    let orderLineTbl' := s.orderLineTbl.map
      (fun r => if olKey oid d w r then { r with _7 := ts } else r)
    let _ ← customerGet s.customerTbl cid d w
    let customerTbl' := updateFirst
      (fun e => e._1 == cid && e._2 == d && e._3 == w)
      (fun e => { e with _17 := e._17 + amtSum, _20 := e._20 + 1 }) s.customerTbl
    return ({ s with
      newOrderTbl := newOrderTbl'
      orderTbl := orderTbl'
      orderLineTbl := orderLineTbl'
      customerTbl := customerTbl' }, oid)

/-- `DeliveryTx` (TpccGenSC.cpp:1579–1635): run `deliverDistrict` for the
districts `1..10` in order, collecting the `orderIDs` slots. -/
def DeliveryTx (ts : TDate) (w carrier : Int) (s : TpccState) :
    Option (TpccState × List Int) :=
  (List.range 10).foldlM
    (fun acc k => do
      let r ← deliverDistrict ts w carrier ((k : Int) + 1) acc.1
      return (r.1, acc.2 ++ [r.2]))
    (s, ([] : List Int))

/-- `unordered_set<int>::insert` on the list model of the set: append the
element unless already present. -/
def insertIfAbsent (x : Int) (l : List Int) : List Int :=
  if l.contains x then l else l ++ [x]

/-- Body of the order_line slice of `StockLevelTx` (TpccGenSC.cpp:1652–1663)
over one `o_id`'s matching lines: for each line, read the stock row
`(ol_i_id, w)` (null dereference if missing) and insert `ol_i_id` into the
set when `s_quantity < threshold`. -/
def stockLevelLines (w threshold : Int) (stockTbl : List SEntry17_IIISSSSSSSSSSIIIS) :
    List SEntry10_IIIIIITIDS → List Int → Option (List Int)
  | [], acc => some acc
  | r :: rest, acc => do
    let st ← stockGet stockTbl r._5 w
    let acc' := if st._3 < threshold then insertIfAbsent r._5 acc else acc
    stockLevelLines w threshold stockTbl rest acc'

/-- `StockLevelTx` (TpccGenSC.cpp:1636–1667) with inputs `(w, d,
threshold)` = `(x85, x86, x87)`: read `next_o_id` from district `(d, w)`,
loop `o_id` from `next_o_id − 20` (no clamping) while `o_id < next_o_id`,
slice the order lines of each `o_id` collecting the distinct `ol_i_id`s
whose stock quantity is below the threshold, and return the unchanged
state with the set's size (the C++ computes the set locally and discards
it; the size is the transaction's only result). -/
def StockLevelTx (w d threshold : Int) (s : TpccState) : Option (TpccState × Nat) := do
  let dist ← districtGet s.districtTbl d w
  let nOid := dist._11
  let oids := intRange20 nOid
  let set ← oids.foldlM
    (fun acc oid =>
      stockLevelLines w threshold s.stockTbl (s.orderLineTbl.filter (olKey oid d w)) acc)
    ([] : List Int)
  return (s, set.length)

/-- The caller-provided output arrays of `NewOrderTx` (`price`, `iname`,
`stock`, `bg`, `amt`) plus the local `idata` array, each modelled as a map
from 0-based line index to the value written there (`none` = the slot was
never written by the transaction). -/
structure NOOut where
  iname : Nat → Option String
  price : Nat → Option ℚ
  idata : Nat → Option String
  stockOut : Nat → Option Int
  bg : Nat → Option String
  amt : Nat → Option ℚ

/-- All-`none` initial output arrays. -/
def NOOut.init : NOOut :=
  ⟨fun _ => none, fun _ => none, fun _ => none, fun _ => none, fun _ => none, fun _ => none⟩

/-- Point update of an output array. -/
def fnUpdate (f : Nat → Option α) (i : Nat) (v : α) : Nat → Option α :=
  fun j => if j = i then some v else f j

/-- The item-read loop of `NewOrderTx` (TpccGenSC.cpp:1788–1825) over the
remaining 0-based line indices: the loop guard is `x289 < x278 && x297`,
so it stops as soon as the `ok` flag is false; a missing item clears `ok`
(writing nothing for that line), a found item records `i_name`, `i_price`
and `i_data` into the arrays. -/
def newOrderItemReads (itemTbl : List SEntry5_IISDS) (itemid : Nat → Int) :
    List Nat → Bool → NOOut → Bool × NOOut
  | [], ok, out => (ok, out)
  | i :: rest, ok, out =>
    if ok then
      match itemGet itemTbl (itemid i) with
      | none => newOrderItemReads itemTbl itemid rest false out
      | some it =>
        newOrderItemReads itemTbl itemid rest ok
          { out with
            iname := fnUpdate out.iname i it._3
            price := fnUpdate out.price i it._4
            idata := fnUpdate out.idata i it._5 }
    else (ok, out)

/-- The ten-way `d_id` dispatch picking the district-specific
`s_dist_xx` column of a stock row (TpccGenSC.cpp:1864–1945):
`d = 1 → _4`, …, `d = 9 → _12`, anything else `→ _13`. -/
def pickDistInfo (d : Int) (st : SEntry17_IIISSSSSSSSSSIIIS) : String :=
  if d == 1 then st._4
  else if d == 2 then st._5
  else if d == 3 then st._6
  else if d == 4 then st._7
  else if d == 5 then st._8
  else if d == 6 then st._9
  else if d == 7 then st._10
  else if d == 8 then st._11
  else if d == 9 then st._12
  else st._13

/-- The order-line write loop of `NewOrderTx` (TpccGenSC.cpp:1850–1997)
over the remaining 0-based line indices, carrying the evolving state, the
output arrays and the running total `x352`.  Per line `i`: read stock
`(itemid i, supware i)` (null dereference if missing), record the
pre-decrement quantity into the `stock` output, compute the `"B"`/`"G"`
grade from `customer.c_credit` (`x11191->_14`) and `s_data`, decrement
`s_quantity` by the ordered quantity adding 91 when the pre-decrement
quantity was not larger, compute
`ol_amount = qty·price·((1 + w_tax) + d_tax)·(1 − c_discount)` and append
an order_line row `(o_id, d, w, i+1, itemid i, supware i, 0, qty,
ol_amount, dist_info)`. -/
def newOrderLines (w d oid : Int) (itemid supware quantity : Nat → Int)
    (cust : SEntry21_IIISSSSSSSSSTSDDDDIIS) (wh : SEntry9_ISSSSSSDD)
    (dist : SEntry11_IISSSSSSDDI) :
    List Nat → TpccState → NOOut → ℚ → Option (TpccState × NOOut × ℚ)
  | [], s, out, total => some (s, out, total)
  | i :: rest, s, out, total => do
    let st ← stockGet s.stockTbl (itemid i) (supware i)
    let olDistInfo := pickDistInfo d st
    let preQty := st._3
    let bgVal :=
      if strContains cust._14 "original" && strContains st._17 "original"
      then "B" else "G"
    let newQty := if preQty ≤ quantity i then preQty - quantity i + 91
                  else preQty - quantity i
    let stockTbl' := updateFirst (fun e => e._1 == itemid i && e._2 == supware i)
      (fun e => { e with _3 := newQty }) s.stockTbl
    let olAmount : ℚ :=
      (((quantity i : ℚ) * ((out.price i).getD 0)) * ((1 + wh._8) + dist._9)) *
        (1 - cust._16)
    let olRow : SEntry10_IIIIIITIDS :=
      ⟨oid, d, w, (i : Int) + 1, itemid i, supware i, 0, quantity i, olAmount, olDistInfo⟩
    let out' := { out with
      stockOut := fnUpdate out.stockOut i preQty
      bg := fnUpdate out.bg i bgVal
      amt := fnUpdate out.amt i olAmount }
    newOrderLines w d oid itemid supware quantity cust wh dist rest
      { s with stockTbl := stockTbl', orderLineTbl := s.orderLineTbl ++ [olRow] }
      out' (total + olAmount)

/-- `NewOrderTx` (TpccGenSC.cpp:1784–1999).  Arguments `(ts, w, d, c, n,
allLocal, itemid, supware, quantity)` for `(x273, x275, x276, x277, x278,
x279, x280, x281, x282)`.  Phase 1 reads the `n` items under the `ok`
flag; if `ok` survives, phase 2 reads customer, warehouse and district
(null dereference if absent), increments `d_next_o_id`, inserts the
order row (with `o_carrier_id = −1`, `o_ol_cnt = n` and
`o_all_local = (allLocal > 0)`) and the new_order row keyed
`(old next_o_id, d, w)`, and runs the order-line write loop; otherwise the
state is returned unchanged. -/
def NewOrderTx (ts : TDate) (w d c : Int) (n : Nat) (allLocal : Int)
    (itemid supware quantity : Nat → Int) (s : TpccState) :
    Option (TpccState × NOOut) :=
  let ro := newOrderItemReads s.itemTbl itemid (List.range n) true NOOut.init
  if ro.1 then do
    let cust ← customerGet s.customerTbl c d w
    let wh ← warehouseGet s.warehouseTbl w
    let dist ← districtGet s.districtTbl d w
    let oid := dist._11
    let districtTbl' := updateFirst (fun e => e._1 == d && e._2 == w)
      (fun e => { e with _11 := e._11 + 1 }) s.districtTbl
    let ordRow : SEntry8_IIIITIIB :=
      ⟨oid, d, w, c, ts, -1, (n : Int), if allLocal > 0 then 1 else 0⟩
    let noRow : SEntry3_III := ⟨oid, d, w⟩
    let s1 : TpccState := { s with
      districtTbl := districtTbl'
      orderTbl := s.orderTbl ++ [ordRow]
      newOrderTbl := s.newOrderTbl ++ [noRow] }
    let r ← newOrderLines w d oid itemid supware quantity cust wh dist
      (List.range n) s1 ro.2 0
    return (r.1, r.2.1)
  else
    some (s, ro.2)

/-- `sentinelEq` holds exactly when one side is the sentinel or the two
values agree. -/
theorem sentinelEq_iff {α} [BEq α] [LawfulBEq α] (sent a b : α) :
    sentinelEq sent a b = true ↔ (a = sent ∨ b = sent ∨ a = b) := by
  simp [sentinelEq, or_assoc]

/-- Claim C10: the comparator of the history table's only index
(`SEntry8_IIIIITDS_Idx::cmp`) declares two history rows equal (returns 0)
iff, for each of the first seven fields, at least one side holds its
sentinel default (`INT_MIN` for the five ints, `0` for the date,
`−DBL_MAX` for the double) or the two values are equal; the eighth field
(`h_data`) is never examined, so any two rows agreeing on the first seven
fields compare equal whatever their `h_data`; and the induced relation is
not transitive. -/
theorem claim_C10 :
    (∀ a b : SEntry8_IIIIITDS, SEntry8_IIIIITDS_Idx_cmp a b = 0 ↔
      ((a._1 = intSentinel ∨ b._1 = intSentinel ∨ a._1 = b._1) ∧
       (a._2 = intSentinel ∨ b._2 = intSentinel ∨ a._2 = b._2) ∧
       (a._3 = intSentinel ∨ b._3 = intSentinel ∨ a._3 = b._3) ∧
       (a._4 = intSentinel ∨ b._4 = intSentinel ∨ a._4 = b._4) ∧
       (a._5 = intSentinel ∨ b._5 = intSentinel ∨ a._5 = b._5) ∧
       (a._6 = 0 ∨ b._6 = 0 ∨ a._6 = b._6) ∧
       (a._7 = dblSentinel ∨ b._7 = dblSentinel ∨ a._7 = b._7))) ∧
    (∀ a b : SEntry8_IIIIITDS,
      a._1 = b._1 → a._2 = b._2 → a._3 = b._3 → a._4 = b._4 → a._5 = b._5 →
      a._6 = b._6 → a._7 = b._7 → SEntry8_IIIIITDS_Idx_cmp a b = 0) ∧
    ¬ Transitive (fun a b : SEntry8_IIIIITDS => SEntry8_IIIIITDS_Idx_cmp a b = 0) := by
  have hsplit : ∀ c : Bool, ((if c then (0 : Int) else 1) = 0) ↔ c = true := by
    intro c; cases c <;> simp
  refine ⟨?_, ?_, ?_⟩
  · intro a b
    rw [SEntry8_IIIIITDS_Idx_cmp, hsplit]
    simp only [Bool.and_eq_true, sentinelEq_iff]
    constructor
    · rintro ⟨⟨⟨⟨⟨⟨x1, x2⟩, x3⟩, x4⟩, x5⟩, x6⟩, x7⟩
      exact ⟨x1, x2, x3, x4, x5, x6, x7⟩
    · rintro ⟨x1, x2, x3, x4, x5, x6, x7⟩
      exact ⟨⟨⟨⟨⟨⟨x1, x2⟩, x3⟩, x4⟩, x5⟩, x6⟩, x7⟩
  · intro a b h1 h2 h3 h4 h5 h6 h7
    rw [SEntry8_IIIIITDS_Idx_cmp, hsplit]
    simp only [Bool.and_eq_true, sentinelEq_iff]
    exact ⟨⟨⟨⟨⟨⟨Or.inr (Or.inr h1), Or.inr (Or.inr h2)⟩, Or.inr (Or.inr h3)⟩,
      Or.inr (Or.inr h4)⟩, Or.inr (Or.inr h5)⟩, Or.inr (Or.inr h6)⟩,
      Or.inr (Or.inr h7)⟩
  · intro htr
    have hab : SEntry8_IIIIITDS_Idx_cmp
        ⟨1, intSentinel, intSentinel, intSentinel, intSentinel, 0, dblSentinel, ""⟩
        ⟨intSentinel, intSentinel, intSentinel, intSentinel, intSentinel, 0, dblSentinel, ""⟩
        = 0 := by decide
    have hbc : SEntry8_IIIIITDS_Idx_cmp
        ⟨intSentinel, intSentinel, intSentinel, intSentinel, intSentinel, 0, dblSentinel, ""⟩
        ⟨2, intSentinel, intSentinel, intSentinel, intSentinel, 0, dblSentinel, ""⟩
        = 0 := by decide
    exact absurd (htr hab hbc) (by decide)

/-- Witness for C10: two history rows differing only in `h_data` compare
equal. -/
theorem claim_C10_witness :
    SEntry8_IIIIITDS_Idx_cmp
      ⟨1, 2, 3, 4, 5, 6, ((7 : Int) : ℚ), "paid"⟩
      ⟨1, 2, 3, 4, 5, 6, ((7 : Int) : ℚ), "refunded"⟩ = 0 :=
  claim_C10.2.1 _ _ rfl rfl rfl rfl rfl rfl rfl

/-- A fold of `noMinStep` that yields a row yields either the seed or a
list member, and that row's `no_o_id` is a lower bound on the seed's and
on every list member's. -/
theorem noMinStep_foldl_spec :
    ∀ (l : List SEntry3_III) (acc : Option SEntry3_III) (m : SEntry3_III),
      l.foldl noMinStep acc = some m →
      (acc = some m ∨ m ∈ l) ∧ (∀ a, acc = some a → m._1 ≤ a._1) ∧
        (∀ r ∈ l, m._1 ≤ r._1) := by
  intro l
  induction l with
  | nil =>
    intro acc m h
    simp only [List.foldl_nil] at h
    refine ⟨Or.inl h, ?_, ?_⟩
    · intro a ha
      rw [h] at ha
      cases ha
      exact le_refl _
    · intro r hr
      cases hr
  | cons e rest ih =>
    intro acc m h
    simp only [List.foldl_cons] at h
    obtain ⟨h1, h2, h3⟩ := ih (noMinStep acc e) m h
    cases acc with
    | none =>
      have hstep : noMinStep none e = some e := rfl
      rw [hstep] at h1 h2
      have hme : m._1 ≤ e._1 := h2 e rfl
      refine ⟨?_, ?_, ?_⟩
      · rcases h1 with h1 | h1
        · exact Or.inr (by rw [Option.some_inj] at h1; rw [← h1]; exact List.mem_cons_self e rest)
        · exact Or.inr (List.mem_cons_of_mem e h1)
      · intro a ha
        cases ha
      · intro r hr
        rcases List.mem_cons.1 hr with h | h
        · rw [h]; exact hme
        · exact h3 r h
    | some a0 =>
      by_cases hlt : e._1 < a0._1
      · have hstep : noMinStep (some a0) e = some e := by
          simp [noMinStep, hlt]
        rw [hstep] at h1 h2
        have hme : m._1 ≤ e._1 := h2 e rfl
        refine ⟨?_, ?_, ?_⟩
        · rcases h1 with h1 | h1
          · exact Or.inr (by rw [Option.some_inj] at h1; rw [← h1]; exact List.mem_cons_self e rest)
          · exact Or.inr (List.mem_cons_of_mem e h1)
        · intro a ha
          rw [Option.some_inj] at ha
          rw [← ha]
          exact le_trans hme (le_of_lt hlt)
        · intro r hr
          rcases List.mem_cons.1 hr with h | h
          · rw [h]; exact hme
          · exact h3 r h
      · have hstep : noMinStep (some a0) e = some a0 := by
          simp [noMinStep, hlt]
        rw [hstep] at h1 h2
        have hma : m._1 ≤ a0._1 := h2 a0 rfl
        refine ⟨?_, ?_, ?_⟩
        · rcases h1 with h1 | h1
          · exact Or.inl h1
          · exact Or.inr (List.mem_cons_of_mem e h1)
        · intro a ha
          rw [Option.some_inj] at ha
          rw [← ha]
          exact hma
        · intro r hr
          rcases List.mem_cons.1 hr with h | h
          · rw [h]
            exact le_trans hma (le_of_not_lt hlt)
          · exact h3 r h

/-- A successful `newOrderTreeGet` returns a pending new_order row of the
probed district whose `no_o_id` is minimal among them. -/
theorem newOrderTreeGet_min (tbl : List SEntry3_III) (d w : Int) (no : SEntry3_III)
    (h : newOrderTreeGet tbl d w = some no) :
    no._2 = d ∧ no._3 = w ∧ no ∈ tbl ∧
      ∀ r ∈ tbl, r._2 = d → r._3 = w → no._1 ≤ r._1 := by
  unfold newOrderTreeGet at h
  obtain ⟨h1, _, h3⟩ := noMinStep_foldl_spec _ _ _ h
  have hmem : no ∈ tbl.filter (fun e => e._2 == d && e._3 == w) := by
    rcases h1 with h1 | h1
    · cases h1
    · exact h1
  have hkey := List.of_mem_filter hmem
  simp only [Bool.and_eq_true, beq_iff_eq] at hkey
  refine ⟨hkey.1, hkey.2, List.mem_of_mem_filter hmem, ?_⟩
  intro r hr hr2 hr3
  exact h3 r (List.mem_filter.2 ⟨hr, by simp [hr2, hr3]⟩)

/-- A small concrete store used by the witnesses: one warehouse `1`, one
district `(1,1)` with `next_o_id = 5`, one customer `(1,1,1)` with credit
`"GC"`, one item `1`, one stock row `(1,1)`, one order `(3,1,1)` with a
pending new_order `(3,1,1)` and one order line. -/
def wWarehouse : SEntry9_ISSSSSSDD :=
  ⟨1, "WONE", "", "", "", "", "", ((0 : Int) : ℚ), ((0 : Int) : ℚ)⟩

/-- Witness district row, see `wState`. -/
def wDistrict : SEntry11_IISSSSSSDDI :=
  ⟨1, 1, "DONE", "", "", "", "", "", ((0 : Int) : ℚ), ((0 : Int) : ℚ), 5⟩

/-- Witness customer row, see `wState`. -/
def wCustomer : SEntry21_IIISSSSSSSSSTSDDDDIIS :=
  ⟨1, 1, 1, "alice", "OE", "SMITH", "", "", "", "", "", "", 0, "GC",
    ((0 : Int) : ℚ), ((0 : Int) : ℚ), ((0 : Int) : ℚ), ((0 : Int) : ℚ), 0, 0, "olddata"⟩

/-- Witness item row, see `wState`. -/
def wItem : SEntry5_IISDS := ⟨1, 0, "itemOne", ((2 : Int) : ℚ), "plain"⟩

/-- Witness stock row, see `wState`. -/
def wStock : SEntry17_IIISSSSSSSSSSIIIS :=
  ⟨1, 1, 50, "d01", "d02", "d03", "d04", "d05", "d06", "d07", "d08", "d09",
    "d10", 0, 0, 0, "plain"⟩

/-- Witness order row, see `wState`. -/
def wOrder : SEntry8_IIIITIIB := ⟨3, 1, 1, 1, 0, -1, 1, 1⟩

/-- Witness new_order row, see `wState`. -/
def wNewOrder : SEntry3_III := ⟨3, 1, 1⟩

/-- Witness order_line row, see `wState`. -/
def wOrderLine : SEntry10_IIIIIITIDS :=
  ⟨3, 1, 1, 1, 1, 1, 0, 5, ((10 : Int) : ℚ), "d01"⟩

/-- The witness store assembled from the rows above. -/
def wState : TpccState :=
  ⟨[wWarehouse], [wDistrict], [wCustomer], [wItem], [wStock], [wOrder],
    [wNewOrder], [wOrderLine], []⟩

/-- Claim C9: a `DeliveryTx` district iteration that finds no pending
new_order row for `(d, w)` records `0` in the per-district result slot and
leaves the whole store untouched (`DeliveryTx` is the fold of
`deliverDistrict` over the districts `1..10`). -/
theorem claim_C9 (ts : TDate) (w carrier d : Int) (s : TpccState)
    (h : newOrderTreeGet s.newOrderTbl d w = none) :
    deliverDistrict ts w carrier d s = some (s, 0) := by
  unfold deliverDistrict
  rw [h]

/-- Witness for C9: district 2 of the witness store has no pending
new_order, and its delivery iteration returns the store unchanged with
slot value 0. -/
theorem claim_C9_witness :
    newOrderTreeGet wState.newOrderTbl 2 1 = none ∧
    deliverDistrict 99 1 7 2 wState = some (wState, 0) :=
  ⟨rfl, claim_C9 99 1 7 2 wState rfl⟩

/-- Claim C2: a `DeliveryTx` district iteration that finds a pending
new_order row for `(d, w)` (and whose order and customer dereferences
succeed) (1) acts on the pending row with the **smallest** `o_id` of the
district and removes it, and (2) produces exactly the state in which the
matching order's `o_carrier_id` is the input carrier, every order_line
row keyed `(o_id, d, w)` has `ol_delivery_d` set to the input timestamp,
and the order's customer has the sum of those lines' `ol_amount` added to
`_17` (its balance) and `1` added to `_20`, recording the delivered
`o_id` in the result slot. -/
theorem claim_C2 (ts : TDate) (w carrier d : Int) (s : TpccState)
    (no : SEntry3_III) (ord : SEntry8_IIIITIIB)
    (cust : SEntry21_IIISSSSSSSSSTSDDDDIIS)
    (hno : newOrderTreeGet s.newOrderTbl d w = some no)
    (hord : orderGet s.orderTbl no._1 d w = some ord)
    (hcust : customerGet s.customerTbl ord._4 d w = some cust) :
    (no._2 = d ∧ no._3 = w ∧ no ∈ s.newOrderTbl ∧
      ∀ r ∈ s.newOrderTbl, r._2 = d → r._3 = w → no._1 ≤ r._1) ∧
    deliverDistrict ts w carrier d s = some
      ({ s with
          newOrderTbl := deleteFirst (fun e => e == no) s.newOrderTbl
          orderTbl := updateFirst (fun e => e._1 == no._1 && e._2 == d && e._3 == w)
            (fun e => { e with _6 := carrier }) s.orderTbl
          orderLineTbl := s.orderLineTbl.map
            (fun r => if olKey no._1 d w r then { r with _7 := ts } else r)
          customerTbl := updateFirst
            (fun e => e._1 == ord._4 && e._2 == d && e._3 == w)
            (fun e => { e with
              _17 := e._17 + olAmountSum (s.orderLineTbl.filter (olKey no._1 d w))
              _20 := e._20 + 1 }) s.customerTbl }, no._1) := by
  refine ⟨newOrderTreeGet_min _ _ _ _ hno, ?_⟩
  unfold deliverDistrict
  rw [hno]
  simp [hord, hcust]

/-- Witness for C2: delivering district 1 of the witness store acts on the
pending row `wNewOrder` and produces the described state. -/
theorem claim_C2_witness :
    newOrderTreeGet wState.newOrderTbl 1 1 = some wNewOrder ∧
    deliverDistrict 42 1 7 1 wState = some
      ({ wState with
          newOrderTbl := deleteFirst (fun e => e == wNewOrder) wState.newOrderTbl
          orderTbl := updateFirst
            (fun e => e._1 == wNewOrder._1 && e._2 == 1 && e._3 == 1)
            (fun e => { e with _6 := 7 }) wState.orderTbl
          orderLineTbl := wState.orderLineTbl.map
            (fun r => if olKey wNewOrder._1 1 1 r then { r with _7 := 42 } else r)
          customerTbl := updateFirst
            (fun e => e._1 == wOrder._4 && e._2 == 1 && e._3 == 1)
            (fun e => { e with
              _17 := e._17 +
                olAmountSum (wState.orderLineTbl.filter (olKey wNewOrder._1 1 1))
              _20 := e._20 + 1 }) wState.customerTbl }, wNewOrder._1) :=
  ⟨rfl, (claim_C2 42 1 7 1 wState wNewOrder wOrder wCustomer rfl rfl rfl).2⟩

/-- `insertSorted` adds exactly one element. -/
theorem insertSorted_length (lt : α → α → Bool) (x : α) (l : List α) :
    (insertSorted lt x l).length = l.length + 1 := by
  induction l with
  | nil => rfl
  | cons y ys ih =>
    unfold insertSorted
    split
    · simp
    · simp [List.length_cons, ih]

/-- `sortWith` permutes, so it preserves length. -/
theorem sortWith_length (lt : α → α → Bool) (l : List α) :
    (sortWith lt l).length = l.length := by
  induction l with
  | nil => rfl
  | cons x xs ih =>
    unfold sortWith
    rw [insertSorted_length, ih, List.length_cons]

/-- The middle index described by the claim: `count / 2` for an odd
count, `count / 2 − 1` for an even count. -/
def medianIdx (count : Nat) : Nat :=
  if count % 2 = 1 then count / 2 else count / 2 - 1

/-- Claim C3: with `by_name` set (`byName > 0`) and a non-empty match
set, `PaymentTx`'s customer selection (`paymentFindCustomer`, the block
TpccGenSC.cpp:1724–1758) returns exactly the element at index
`medianIdx count` of the match set sorted by case-insensitive `c_first`
— index `count/2` for an odd count and `count/2 − 1` for an even count —
and in particular index 0, 0, 1 for 1, 2, 3 matches. -/
theorem claim_C3 (byName : Int) (cw cd cid : Int) (clast : String)
    (tbl : List SEntry21_IIISSSSSSSSSTSDDDDIIS)
    (hby : byName > 0)
    (hne : tbl.filter (custLastKey cd cw clast) ≠ []) :
    paymentFindCustomer byName cw cd cid clast tbl =
      (sortWith (fun c1 c2 => strcmpi c1._4 c2._4 < 0)
          (tbl.filter (custLastKey cd cw clast))).get?
        (medianIdx (tbl.filter (custLastKey cd cw clast)).length) ∧
    (paymentFindCustomer byName cw cd cid clast tbl).isSome = true ∧
    medianIdx 1 = 0 ∧ medianIdx 2 = 0 ∧ medianIdx 3 = 1 := by
  have hn : 0 < (tbl.filter (custLastKey cd cw clast)).length :=
    List.length_pos.2 hne
  have hmain : paymentFindCustomer byName cw cd cid clast tbl =
      (sortWith (fun c1 c2 => strcmpi c1._4 c2._4 < 0)
          (tbl.filter (custLastKey cd cw clast))).get?
        (medianIdx (tbl.filter (custLastKey cd cw clast)).length) := by
    unfold paymentFindCustomer
    rw [if_pos hby]
    generalize tbl.filter (custLastKey cd cw clast) = found at hn ⊢
    show (if (if ((found.length : Int)) % 2 = 0 then ((found.length : Int)) / 2 - 1
              else ((found.length : Int)) / 2) < 0
          then none
          else (sortWith (fun c1 c2 => strcmpi c1._4 c2._4 < 0) found).get?
            (if ((found.length : Int)) % 2 = 0 then ((found.length : Int)) / 2 - 1
             else ((found.length : Int)) / 2).toNat)
        = (sortWith (fun c1 c2 => strcmpi c1._4 c2._4 < 0) found).get?
            (medianIdx found.length)
    by_cases hpar : found.length % 2 = 0
    · have hip : ((found.length : Int)) % 2 = 0 := by omega
      rw [if_pos hip, if_neg (by omega)]
      congr 1
      unfold medianIdx
      rw [if_neg (by omega)]
      omega
    · have hip : ¬ ((found.length : Int)) % 2 = 0 := by omega
      rw [if_neg hip, if_neg (by omega)]
      congr 1
      unfold medianIdx
      rw [if_pos (by omega)]
      omega
  refine ⟨hmain, ?_, rfl, rfl, rfl⟩
  rw [hmain]
  have hlt : medianIdx (tbl.filter (custLastKey cd cw clast)).length <
      (sortWith (fun c1 c2 => strcmpi c1._4 c2._4 < 0)
        (tbl.filter (custLastKey cd cw clast))).length := by
    rw [sortWith_length]
    unfold medianIdx
    split
    · omega
    · omega
  rw [List.get?_eq_get hlt]
  rfl

/-- Witness for C3: selecting by last name `"SMITH"` in the witness store
(one match) picks the sorted middle element. -/
theorem claim_C3_witness :
    ((1 : Int) > 0) ∧
    wState.customerTbl.filter (custLastKey 1 1 "SMITH") ≠ [] ∧
    paymentFindCustomer 1 1 1 99 "SMITH" wState.customerTbl =
      (sortWith (fun c1 c2 => strcmpi c1._4 c2._4 < 0)
          (wState.customerTbl.filter (custLastKey 1 1 "SMITH"))).get?
        (medianIdx (wState.customerTbl.filter (custLastKey 1 1 "SMITH")).length) :=
  ⟨by decide, by decide,
    (claim_C3 1 1 1 99 "SMITH" wState.customerTbl (by decide) (by decide)).1⟩

/-- Claim C5: a `PaymentTx` whose three dereferences succeed rewrites the
selected customer's `c_data` (to the `"%d %d %d %d %d $%f %s | %s"`
format over `(c_id, c_d_id, c_w_id, d_id, w_id, h_amount, date, old
c_data)` truncated to 500 bytes — `paymentCData`) exactly when the
customer's credit field contains `"BC"`, leaves `c_data` untouched
otherwise, and in both cases adds `h_amount` to the customer's balance
field `_17` (besides the warehouse/district ytd updates and the appended
history row). -/
theorem claim_C5 (ts : TDate) (w d byName cw cd cid : Int) (clast : String)
    (h : ℚ) (s : TpccState) (wh : SEntry9_ISSSSSSDD)
    (dist : SEntry11_IISSSSSSDDI) (cust : SEntry21_IIISSSSSSSSSTSDDDDIIS)
    (hwh : warehouseGet s.warehouseTbl w = some wh)
    (hdist : districtGet s.districtTbl d w = some dist)
    (hcust : paymentFindCustomer byName cw cd cid clast s.customerTbl = some cust) :
    PaymentTx ts w d byName cw cd cid clast h s = some
      { s with
        warehouseTbl := updateFirst (fun e => e._1 == w)
          (fun e => { e with _9 := e._9 + h }) s.warehouseTbl
        districtTbl := updateFirst (fun e => e._1 == d && e._2 == w)
          (fun e => { e with _10 := e._10 + h }) s.districtTbl
        customerTbl := updateFirst
          (fun e => e._1 == cust._1 && e._2 == cust._2 && e._3 == cust._3)
          (fun _ =>
            if strContains cust._14 "BC" then
              { cust with
                _17 := cust._17 + h
                _21 := paymentCData cust._1 cd cw d w h (IntToStrdate ts) cust._21 }
            else
              { cust with _17 := cust._17 + h }) s.customerTbl
        historyTbl := s.historyTbl ++
          [⟨cust._1, cd, cw, d, w, ts, h, paymentHData wh._2 dist._3⟩] } := by
  unfold PaymentTx
  simp [hwh, hdist, hcust]

/-- Witness for C5: paying customer `(1,1,1)` (credit `"GC"`) of the
witness store leaves `c_data` alone and adds the amount everywhere
described. -/
theorem claim_C5_witness :
    warehouseGet wState.warehouseTbl 1 = some wWarehouse ∧
    districtGet wState.districtTbl 1 1 = some wDistrict ∧
    paymentFindCustomer 0 1 1 1 "" wState.customerTbl = some wCustomer ∧
    PaymentTx 7 1 1 0 1 1 1 "" ((10 : Int) : ℚ) wState = some
      { wState with
        warehouseTbl := updateFirst (fun e => e._1 == 1)
          (fun e => { e with _9 := e._9 + ((10 : Int) : ℚ) }) wState.warehouseTbl
        districtTbl := updateFirst (fun e => e._1 == 1 && e._2 == 1)
          (fun e => { e with _10 := e._10 + ((10 : Int) : ℚ) }) wState.districtTbl
        customerTbl := updateFirst
          (fun e => e._1 == wCustomer._1 && e._2 == wCustomer._2 && e._3 == wCustomer._3)
          (fun _ =>
            if strContains wCustomer._14 "BC" then
              { wCustomer with
                _17 := wCustomer._17 + ((10 : Int) : ℚ)
                _21 := paymentCData wCustomer._1 1 1 1 1 ((10 : Int) : ℚ)
                  (IntToStrdate 7) wCustomer._21 }
            else
              { wCustomer with _17 := wCustomer._17 + ((10 : Int) : ℚ) })
          wState.customerTbl
        historyTbl := wState.historyTbl ++
          [⟨wCustomer._1, 1, 1, 1, 1, 7, ((10 : Int) : ℚ),
            paymentHData wWarehouse._2 wDistrict._3⟩] } :=
  ⟨rfl, rfl, rfl,
    claim_C5 7 1 1 0 1 1 1 "" ((10 : Int) : ℚ) wState wWarehouse wDistrict
      wCustomer rfl rfl rfl⟩

/-- With the `ok` flag already cleared the item-read loop does nothing:
the guard `x289 < x278 && x297` fails immediately. -/
theorem newOrderItemReads_false (itemTbl : List SEntry5_IISDS) (itemid : Nat → Int)
    (l : List Nat) (out : NOOut) :
    newOrderItemReads itemTbl itemid l false out = (false, out) := by
  cases l <;> rfl

/-- If some line index in the work list has no item row, the item-read
loop ends with the `ok` flag cleared. -/
theorem newOrderItemReads_fail (itemTbl : List SEntry5_IISDS) (itemid : Nat → Int) :
    ∀ (l : List Nat) (i : Nat), i ∈ l → itemGet itemTbl (itemid i) = none →
      ∀ out, (newOrderItemReads itemTbl itemid l true out).1 = false := by
  intro l
  induction l with
  | nil =>
    intro i hi
    cases hi
  | cons j rest ih =>
    intro i hi hnone out
    rcases List.mem_cons.1 hi with hij | hir
    · subst hij
      unfold newOrderItemReads
      rw [if_pos rfl, hnone, newOrderItemReads_false]
    · unfold newOrderItemReads
      rw [if_pos rfl]
      cases hj : itemGet itemTbl (itemid j) with
      | none => rw [newOrderItemReads_false]
      | some it => exact ih i hir hnone _

/-- Claim C1: a `NewOrderTx` whose item-id array contains (below the line
count `n`) an `i_id` with no item row performs no writes: it returns the
store exactly as it was (together with whatever outputs the aborted read
loop recorded). -/
theorem claim_C1 (ts : TDate) (w d c : Int) (n : Nat) (allLocal : Int)
    (itemid supware quantity : Nat → Int) (s : TpccState)
    (hfail : ∃ i, i < n ∧ itemGet s.itemTbl (itemid i) = none) :
    ∃ out, NewOrderTx ts w d c n allLocal itemid supware quantity s = some (s, out) := by
  obtain ⟨i, hi, hnone⟩ := hfail
  have hok : (newOrderItemReads s.itemTbl itemid (List.range n) true NOOut.init).1 = false :=
    newOrderItemReads_fail _ _ _ i (List.mem_range.2 hi) hnone _
  refine ⟨(newOrderItemReads s.itemTbl itemid (List.range n) true NOOut.init).2, ?_⟩
  simp only [NewOrderTx, hok, Bool.false_eq_true, if_false]

/-- Witness for C1: a one-line order for the unknown item 99 leaves the
witness store untouched. -/
theorem claim_C1_witness :
    (∃ i, i < 1 ∧ itemGet wState.itemTbl ((fun _ => (99 : Int)) i) = none) ∧
    ∃ out, NewOrderTx 0 1 1 1 1 1 (fun _ => 99) (fun _ => 1) (fun _ => 5) wState =
      some (wState, out) :=
  ⟨⟨0, by decide, rfl⟩,
    claim_C1 0 1 1 1 1 1 (fun _ => 99) (fun _ => 1) (fun _ => 5) wState
      ⟨0, by decide, rfl⟩⟩

/-- One loop iteration hitting a missing item: clear `ok`, write nothing. -/
theorem newOrderItemReads_cons_none (itemTbl : List SEntry5_IISDS) (itemid : Nat → Int)
    (j : Nat) (rest : List Nat) (out : NOOut)
    (hj : itemGet itemTbl (itemid j) = none) :
    newOrderItemReads itemTbl itemid (j :: rest) true out =
      newOrderItemReads itemTbl itemid rest false out := by
  simp only [newOrderItemReads, hj, if_true]

/-- One loop iteration finding its item: record name, price and data. -/
theorem newOrderItemReads_cons_some (itemTbl : List SEntry5_IISDS) (itemid : Nat → Int)
    (j : Nat) (rest : List Nat) (out : NOOut) (it : SEntry5_IISDS)
    (hj : itemGet itemTbl (itemid j) = some it) :
    newOrderItemReads itemTbl itemid (j :: rest) true out =
      newOrderItemReads itemTbl itemid rest true
        { out with
          iname := fnUpdate out.iname j it._3
          price := fnUpdate out.price j it._4
          idata := fnUpdate out.idata j it._5 } := by
  simp only [newOrderItemReads, hj, if_true]

/-- The item-read loop splits over appended work lists. -/
theorem newOrderItemReads_append (itemTbl : List SEntry5_IISDS) (itemid : Nat → Int) :
    ∀ (l1 l2 : List Nat) (ok : Bool) (out : NOOut),
      newOrderItemReads itemTbl itemid (l1 ++ l2) ok out =
        newOrderItemReads itemTbl itemid l2
          (newOrderItemReads itemTbl itemid l1 ok out).1
          (newOrderItemReads itemTbl itemid l1 ok out).2 := by
  intro l1
  induction l1 with
  | nil =>
    intro l2 ok out
    rfl
  | cons j rest ih =>
    intro l2 ok out
    rw [List.cons_append]
    cases ok with
    | false =>
      rw [newOrderItemReads_false, newOrderItemReads_false, newOrderItemReads_false]
    | true =>
      cases hj : itemGet itemTbl (itemid j) with
      | none =>
        rw [newOrderItemReads_cons_none _ _ _ _ _ hj,
          newOrderItemReads_cons_none _ _ _ _ _ hj]
        exact ih l2 false out
      | some it =>
        rw [newOrderItemReads_cons_some _ _ _ _ _ _ hj,
          newOrderItemReads_cons_some _ _ _ _ _ _ hj]
        exact ih l2 true _

/-- If every line index in the work list has an item row, the item-read
loop keeps the `ok` flag set. -/
theorem newOrderItemReads_ok (itemTbl : List SEntry5_IISDS) (itemid : Nat → Int) :
    ∀ (l : List Nat) (out : NOOut),
      (∀ i ∈ l, (itemGet itemTbl (itemid i)).isSome) →
      (newOrderItemReads itemTbl itemid l true out).1 = true := by
  intro l
  induction l with
  | nil =>
    intro out _
    rfl
  | cons j rest ih =>
    intro out hall
    cases hj : itemGet itemTbl (itemid j) with
    | none =>
      have := hall j (List.mem_cons_self j rest)
      rw [hj] at this
      cases this
    | some it =>
      rw [newOrderItemReads_cons_some _ _ _ _ _ _ hj]
      exact ih _ (fun i hi => hall i (List.mem_cons_of_mem j hi))

/-- The item-read loop writes no output slot outside its work list. -/
theorem newOrderItemReads_untouched (itemTbl : List SEntry5_IISDS) (itemid : Nat → Int) :
    ∀ (l : List Nat) (ok : Bool) (out : NOOut) (k : Nat), k ∉ l →
      (newOrderItemReads itemTbl itemid l ok out).2.iname k = out.iname k ∧
      (newOrderItemReads itemTbl itemid l ok out).2.price k = out.price k ∧
      (newOrderItemReads itemTbl itemid l ok out).2.idata k = out.idata k := by
  intro l
  induction l with
  | nil =>
    intro ok out k _
    exact ⟨rfl, rfl, rfl⟩
  | cons j rest ih =>
    intro ok out k hk
    have hkj : k ≠ j := fun h => hk (h ▸ List.mem_cons_self j rest)
    have hkr : k ∉ rest := fun h => hk (List.mem_cons_of_mem j h)
    cases ok with
    | false =>
      rw [newOrderItemReads_false]
      exact ⟨rfl, rfl, rfl⟩
    | true =>
      cases hj : itemGet itemTbl (itemid j) with
      | none =>
        rw [newOrderItemReads_cons_none _ _ _ _ _ hj]
        exact ih false out k hkr
      | some it =>
        rw [newOrderItemReads_cons_some _ _ _ _ _ _ hj]
        obtain ⟨h1, h2, h3⟩ := ih true
          { out with
            iname := fnUpdate out.iname j it._3
            price := fnUpdate out.price j it._4
            idata := fnUpdate out.idata j it._5 } k hkr
        refine ⟨?_, ?_, ?_⟩
        · rw [h1]
          show fnUpdate out.iname j it._3 k = out.iname k
          unfold fnUpdate
          rw [if_neg hkj]
        · rw [h2]
          show fnUpdate out.price j it._4 k = out.price k
          unfold fnUpdate
          rw [if_neg hkj]
        · rw [h3]
          show fnUpdate out.idata j it._5 k = out.idata k
          unfold fnUpdate
          rw [if_neg hkj]

/-- Counterexample for C7: a two-line `NewOrderTx` against the witness
store whose line 0 names the unknown item 99 while line 1 names the
existing item 1.  The claim says line 1's price, name and data are still
recorded; in fact the loop guard `x289 < x278 && x297` stops the loop at
the first missing item, so line 1's output slots stay unwritten. -/
theorem claim_C7_cex :
    itemGet wState.itemTbl ((fun i => if i = 0 then (99 : Int) else 1) 0) = none ∧
    (itemGet wState.itemTbl ((fun i => if i = 0 then (99 : Int) else 1) 1)).isSome = true ∧
    (NewOrderTx 0 1 1 1 2 1 (fun i => if i = 0 then 99 else 1) (fun _ => 1)
        (fun _ => 5) wState).map
      (fun r => ((r.2.iname 1).isNone, (r.2.price 1).isNone, (r.2.idata 1).isNone)) =
      some (true, true, true) :=
  ⟨rfl, rfl, rfl⟩

/-- Claim C7 (amended): when the first missing item is at line `j`, the
item-read loop of `NewOrderTx` stops there — no later line's item is
read, so the output/local arrays of every line from `j` on stay
unwritten — and the write phase is skipped, returning the store
unchanged. -/
theorem claim_C7_amended (ts : TDate) (w d c : Int) (n : Nat) (allLocal : Int)
    (itemid supware quantity : Nat → Int) (s : TpccState) (j : Nat)
    (hj : j < n) (hnone : itemGet s.itemTbl (itemid j) = none)
    (hbefore : ∀ i, i < j → (itemGet s.itemTbl (itemid i)).isSome) :
    ∃ out, NewOrderTx ts w d c n allLocal itemid supware quantity s = some (s, out) ∧
      ∀ k, j ≤ k → out.iname k = none ∧ out.price k = none ∧ out.idata k = none := by
  have hro : newOrderItemReads s.itemTbl itemid (List.range n) true NOOut.init =
      (false, (newOrderItemReads s.itemTbl itemid (List.range j) true NOOut.init).2) := by
    have h1 : List.range n = List.range (j + 1) ++
        (List.range (n - (j + 1))).map ((j + 1) + ·) := by
      rw [← List.range_add]
      congr 1
      omega
    have hr0ok : (newOrderItemReads s.itemTbl itemid (List.range j) true NOOut.init).1 =
        true :=
      newOrderItemReads_ok _ _ _ _ (fun i hi => hbefore i (List.mem_range.1 hi))
    have h2 : newOrderItemReads s.itemTbl itemid (List.range (j + 1)) true NOOut.init =
        (false, (newOrderItemReads s.itemTbl itemid (List.range j) true NOOut.init).2) := by
      rw [List.range_succ, newOrderItemReads_append, hr0ok,
        newOrderItemReads_cons_none _ _ _ _ _ hnone]
      rfl
    rw [h1, newOrderItemReads_append, h2]
    dsimp only
    rw [newOrderItemReads_false]
  refine ⟨(newOrderItemReads s.itemTbl itemid (List.range j) true NOOut.init).2, ?_, ?_⟩
  · simp only [NewOrderTx, hro, Bool.false_eq_true, if_false]
  · intro k hk
    have hnotin : k ∉ List.range j := by
      intro hmem
      have := List.mem_range.1 hmem
      omega
    have h := newOrderItemReads_untouched s.itemTbl itemid (List.range j) true
      NOOut.init k hnotin
    simpa [NOOut.init] using h

/-- Witness for the amended C7: the two-line order of the counterexample,
first missing item at line 0, leaves the store unchanged and line 1
unrecorded. -/
theorem claim_C7_amended_witness :
    (0 < 2) ∧
    itemGet wState.itemTbl ((fun i => if i = 0 then (99 : Int) else 1) 0) = none ∧
    (∃ out, NewOrderTx 3 1 1 1 2 1 (fun i => if i = 0 then (99 : Int) else 1)
        (fun _ => 1) (fun _ => 5) wState = some (wState, out) ∧
      ∀ k, 0 ≤ k → out.iname k = none ∧ out.price k = none ∧ out.idata k = none) :=
  ⟨by decide, rfl,
    claim_C7_amended 3 1 1 1 2 1 (fun i => if i = 0 then (99 : Int) else 1)
      (fun _ => 1) (fun _ => 5) wState 0 (by decide) rfl
      (fun i hi => absurd hi (Nat.not_lt_zero i))⟩

/-- `updateFirst` with a function that preserves a projection preserves
the projected list. -/
theorem updateFirst_map {β : Type} (g : α → β) (p : α → Bool) (f : α → α)
    (hf : ∀ e, g (f e) = g e) : ∀ l : List α, (updateFirst p f l).map g = l.map g := by
  intro l
  induction l with
  | nil => rfl
  | cons x xs ih =>
    unfold updateFirst
    by_cases hx : p x = true
    · rw [if_pos hx]
      simp [List.map_cons, hf x]
    · rw [if_neg hx]
      simp [List.map_cons, ih]

/-- Whether a stock probe hits depends only on the key columns
`(s_i_id, s_w_id)` of the table. -/
theorem stockGet_isSome_congr (t1 t2 : List SEntry17_IIISSSSSSSSSSIIIS)
    (hkeys : t1.map (fun e => (e._1, e._2)) = t2.map (fun e => (e._1, e._2)))
    (a b : Int) : (stockGet t1 a b).isSome = (stockGet t2 a b).isSome := by
  have hiff : ∀ t : List SEntry17_IIISSSSSSSSSSIIIS, ((stockGet t a b).isSome = true ↔
      (a, b) ∈ t.map (fun e => (e._1, e._2))) := by
    intro t
    rw [stockGet, List.find?_isSome]
    constructor
    · rintro ⟨x, hx, hpx⟩
      simp only [Bool.and_eq_true, beq_iff_eq] at hpx
      exact List.mem_map.2 ⟨x, hx, by rw [hpx.1, hpx.2]⟩
    · intro hmem
      obtain ⟨x, hx, hxy⟩ := List.mem_map.1 hmem
      refine ⟨x, hx, ?_⟩
      have h1 : x._1 = a := congrArg Prod.fst hxy
      have h2 : x._2 = b := congrArg Prod.snd hxy
      simp [h1, h2]
  refine Bool.eq_iff_iff.mpr ?_
  rw [hiff t1, hiff t2, hkeys]

/-- One iteration of the order-line write loop whose stock probe hits. -/
theorem newOrderLines_cons (w d oid : Int) (itemid supware quantity : Nat → Int)
    (cust : SEntry21_IIISSSSSSSSSTSDDDDIIS) (wh : SEntry9_ISSSSSSDD)
    (dist : SEntry11_IISSSSSSDDI) (i : Nat) (rest : List Nat) (s1 : TpccState)
    (out : NOOut) (tot : ℚ) (st : SEntry17_IIISSSSSSSSSSIIIS)
    (hst : stockGet s1.stockTbl (itemid i) (supware i) = some st) :
    newOrderLines w d oid itemid supware quantity cust wh dist (i :: rest) s1 out tot =
      newOrderLines w d oid itemid supware quantity cust wh dist rest
        { s1 with
          stockTbl := updateFirst (fun e => e._1 == itemid i && e._2 == supware i)
            (fun e => { e with
              _3 := if st._3 ≤ quantity i then st._3 - quantity i + 91
                    else st._3 - quantity i }) s1.stockTbl
          orderLineTbl := s1.orderLineTbl ++
            [⟨oid, d, w, (i : Int) + 1, itemid i, supware i, 0, quantity i,
              (((quantity i : ℚ) * ((out.price i).getD 0)) * ((1 + wh._8) + dist._9)) *
                (1 - cust._16),
              pickDistInfo d st⟩] }
        { out with
          stockOut := fnUpdate out.stockOut i st._3
          bg := fnUpdate out.bg i
            (if strContains cust._14 "original" && strContains st._17 "original"
             then "B" else "G")
          amt := fnUpdate out.amt i
            ((((quantity i : ℚ) * ((out.price i).getD 0)) * ((1 + wh._8) + dist._9)) *
              (1 - cust._16)) }
        (tot +
          (((quantity i : ℚ) * ((out.price i).getD 0)) * ((1 + wh._8) + dist._9)) *
            (1 - cust._16)) := by
  simp only [newOrderLines, hst, Option.some_bind]
  rfl

/-- The order-line write loop, when every stock probe on its work list
hits, succeeds and: appends exactly one order_line row per line, each
keyed `(oid, d, w)`; only rewrites stock rows in place (the key columns
of the stock table are untouched); and leaves every other table alone. -/
theorem newOrderLines_spec (w d oid : Int) (itemid supware quantity : Nat → Int)
    (cust : SEntry21_IIISSSSSSSSSTSDDDDIIS) (wh : SEntry9_ISSSSSSDD)
    (dist : SEntry11_IISSSSSSDDI) :
    ∀ (l : List Nat) (s1 : TpccState) (out : NOOut) (tot : ℚ),
      (∀ j ∈ l, (stockGet s1.stockTbl (itemid j) (supware j)).isSome) →
      ∃ s2 out2 tot2,
        newOrderLines w d oid itemid supware quantity cust wh dist l s1 out tot =
          some (s2, out2, tot2) ∧
        (∃ ols, s2.orderLineTbl = s1.orderLineTbl ++ ols ∧ ols.length = l.length ∧
          ∀ r ∈ ols, r._1 = oid ∧ r._2 = d ∧ r._3 = w) ∧
        s2.stockTbl.map (fun e => (e._1, e._2)) =
          s1.stockTbl.map (fun e => (e._1, e._2)) ∧
        s2.warehouseTbl = s1.warehouseTbl ∧ s2.districtTbl = s1.districtTbl ∧
        s2.customerTbl = s1.customerTbl ∧ s2.itemTbl = s1.itemTbl ∧
        s2.orderTbl = s1.orderTbl ∧ s2.newOrderTbl = s1.newOrderTbl ∧
        s2.historyTbl = s1.historyTbl := by
  intro l
  induction l with
  | nil =>
    intro s1 out tot _
    refine ⟨s1, out, tot, rfl, ⟨[], by simp, rfl, ?_⟩, rfl, rfl, rfl, rfl, rfl, rfl,
      rfl, rfl⟩
    intro r hr
    cases hr
  | cons i rest ih =>
    intro s1 out tot hstock
    obtain ⟨st, hst⟩ := Option.isSome_iff_exists.1 (hstock i (List.mem_cons_self i rest))
    have hkeysStep : (updateFirst (fun e => e._1 == itemid i && e._2 == supware i)
        (fun e => { e with
          _3 := if st._3 ≤ quantity i then st._3 - quantity i + 91
                else st._3 - quantity i }) s1.stockTbl).map
          (fun e => (e._1, e._2)) = s1.stockTbl.map (fun e => (e._1, e._2)) :=
      updateFirst_map (fun e => (e._1, e._2))
        (fun e => e._1 == itemid i && e._2 == supware i)
        (fun e => { e with
          _3 := if st._3 ≤ quantity i then st._3 - quantity i + 91
                else st._3 - quantity i })
        (fun e => rfl) s1.stockTbl
    obtain ⟨s2, out2, tot2, heq, ⟨ols, holc, hlen, hkeyol⟩, hkeys, hw2, hd2, hc2, hi2,
        ho2, hn2, hh2⟩ :=
      ih { s1 with
            stockTbl := updateFirst (fun e => e._1 == itemid i && e._2 == supware i)
              (fun e => { e with
                _3 := if st._3 ≤ quantity i then st._3 - quantity i + 91
                      else st._3 - quantity i }) s1.stockTbl
            orderLineTbl := s1.orderLineTbl ++
              [⟨oid, d, w, (i : Int) + 1, itemid i, supware i, 0, quantity i,
                (((quantity i : ℚ) * ((out.price i).getD 0)) * ((1 + wh._8) + dist._9)) *
                  (1 - cust._16),
                pickDistInfo d st⟩] }
        { out with
          stockOut := fnUpdate out.stockOut i st._3
          bg := fnUpdate out.bg i
            (if strContains cust._14 "original" && strContains st._17 "original"
             then "B" else "G")
          amt := fnUpdate out.amt i
            ((((quantity i : ℚ) * ((out.price i).getD 0)) * ((1 + wh._8) + dist._9)) *
              (1 - cust._16)) }
        (tot +
          (((quantity i : ℚ) * ((out.price i).getD 0)) * ((1 + wh._8) + dist._9)) *
            (1 - cust._16))
        (fun j hj =>
          (stockGet_isSome_congr _ _ hkeysStep (itemid j) (supware j)).trans
            (hstock j (List.mem_cons_of_mem i hj)))
    rw [newOrderLines_cons w d oid itemid supware quantity cust wh dist i rest s1 out
      tot st hst]
    refine ⟨s2, out2, tot2, heq,
      ⟨⟨oid, d, w, (i : Int) + 1, itemid i, supware i, 0, quantity i,
          (((quantity i : ℚ) * ((out.price i).getD 0)) * ((1 + wh._8) + dist._9)) *
            (1 - cust._16),
          pickDistInfo d st⟩ :: ols, ?_, ?_, ?_⟩, ?_, ?_, ?_, ?_, ?_, ?_, ?_, ?_⟩
    · rw [holc]
      dsimp only
      rw [List.append_assoc]
      rfl
    · simp [hlen]
    · intro r hr
      rcases List.mem_cons.1 hr with hre | hrm
      · rw [hre]
        exact ⟨rfl, rfl, rfl⟩
      · exact hkeyol r hrm
    · rw [hkeys]
      exact hkeysStep
    · rw [hw2]
    · rw [hd2]
    · rw [hc2]
    · rw [hi2]
    · rw [ho2]
    · rw [hn2]
    · rw [hh2]

/-- Claim C4: a committing `NewOrderTx` (all `n` item probes hit; the
customer, warehouse, district and per-line stock dereferences succeed)
bumps `d_next_o_id` by exactly 1, appends exactly one order row
`(old next_o_id, d, w, c, ts, o_carrier_id = −1, o_ol_cnt = n,
o_all_local)`, exactly one new_order row with the same key, and exactly
`n` order_line rows all keyed `(old next_o_id, d, w)`; the stock table
keeps its row count (rows are only rewritten in place) and the
warehouse, customer, item and history tables are untouched. -/
theorem claim_C4 (ts : TDate) (w d c : Int) (n : Nat) (allLocal : Int)
    (itemid supware quantity : Nat → Int) (s : TpccState)
    (cust : SEntry21_IIISSSSSSSSSTSDDDDIIS) (wh : SEntry9_ISSSSSSDD)
    (dist : SEntry11_IISSSSSSDDI)
    (hitems : ∀ i, i < n → (itemGet s.itemTbl (itemid i)).isSome)
    (hcust : customerGet s.customerTbl c d w = some cust)
    (hwh : warehouseGet s.warehouseTbl w = some wh)
    (hdist : districtGet s.districtTbl d w = some dist)
    (hstock : ∀ i, i < n → (stockGet s.stockTbl (itemid i) (supware i)).isSome) :
    ∃ res, NewOrderTx ts w d c n allLocal itemid supware quantity s = some res ∧
      res.1.districtTbl = updateFirst (fun e => e._1 == d && e._2 == w)
        (fun e => { e with _11 := e._11 + 1 }) s.districtTbl ∧
      res.1.orderTbl = s.orderTbl ++
        [⟨dist._11, d, w, c, ts, -1, (n : Int), if allLocal > 0 then 1 else 0⟩] ∧
      res.1.newOrderTbl = s.newOrderTbl ++ [⟨dist._11, d, w⟩] ∧
      (∃ ols, res.1.orderLineTbl = s.orderLineTbl ++ ols ∧ ols.length = n ∧
        ∀ r ∈ ols, r._1 = dist._11 ∧ r._2 = d ∧ r._3 = w) ∧
      res.1.stockTbl.length = s.stockTbl.length ∧
      res.1.warehouseTbl = s.warehouseTbl ∧
      res.1.customerTbl = s.customerTbl ∧
      res.1.itemTbl = s.itemTbl ∧
      res.1.historyTbl = s.historyTbl := by
  have hok : (newOrderItemReads s.itemTbl itemid (List.range n) true NOOut.init).1 =
      true :=
    newOrderItemReads_ok _ _ _ _ (fun i hi => hitems i (List.mem_range.1 hi))
  obtain ⟨s2, out2, tot2, heq, ⟨ols, holc, hlen, hkeyol⟩, hkeys, hw2, hd2, hc2, hi2,
      ho2, hn2, hh2⟩ :=
    newOrderLines_spec w d dist._11 itemid supware quantity cust wh dist (List.range n)
      { s with
        districtTbl := updateFirst (fun e => e._1 == d && e._2 == w)
          (fun e => { e with _11 := e._11 + 1 }) s.districtTbl
        orderTbl := s.orderTbl ++
          [⟨dist._11, d, w, c, ts, -1, (n : Int), if allLocal > 0 then 1 else 0⟩]
        newOrderTbl := s.newOrderTbl ++ [⟨dist._11, d, w⟩] }
      (newOrderItemReads s.itemTbl itemid (List.range n) true NOOut.init).2 0
      (fun j hj => hstock j (List.mem_range.1 hj))
  refine ⟨(s2, out2), ?_, ?_, ?_, ?_, ⟨ols, ?_, ?_, ?_⟩, ?_, ?_, ?_, ?_, ?_⟩
  · simp only [NewOrderTx, hok, if_true, hcust, hwh, hdist, Option.pure_def,
      Option.bind_eq_bind, Option.some_bind]
    rw [heq]
    rfl
  · rw [hd2]
  · rw [ho2]
  · rw [hn2]
  · rw [holc]
  · rw [hlen]
    exact List.length_range n
  · exact hkeyol
  · have hlen2 := congrArg List.length hkeys
    rw [List.length_map, List.length_map] at hlen2
    exact hlen2
  · rw [hw2]
  · rw [hc2]
  · rw [hi2]
  · rw [hh2]

/-- Witness for C4: a committing one-line order for item 1 against the
witness store inserts one order, one new_order and one order_line row
for `o_id = 5` and bumps the district counter. -/
theorem claim_C4_witness :
    (∀ i, i < 1 → (itemGet wState.itemTbl ((fun _ => (1 : Int)) i)).isSome) ∧
    (∀ i, i < 1 →
      (stockGet wState.stockTbl ((fun _ => (1 : Int)) i) ((fun _ => (1 : Int)) i)).isSome) ∧
    (∃ res, NewOrderTx 0 1 1 1 1 1 (fun _ => 1) (fun _ => 1) (fun _ => 5) wState =
        some res ∧
      res.1.districtTbl = updateFirst (fun e => e._1 == 1 && e._2 == 1)
        (fun e => { e with _11 := e._11 + 1 }) wState.districtTbl ∧
      res.1.orderTbl = wState.orderTbl ++
        [⟨wDistrict._11, 1, 1, 1, 0, -1, ((1 : Nat) : Int),
          if (1 : Int) > 0 then 1 else 0⟩] ∧
      res.1.newOrderTbl = wState.newOrderTbl ++ [⟨wDistrict._11, 1, 1⟩] ∧
      (∃ ols, res.1.orderLineTbl = wState.orderLineTbl ++ ols ∧ ols.length = 1 ∧
        ∀ r ∈ ols, r._1 = wDistrict._11 ∧ r._2 = 1 ∧ r._3 = 1) ∧
      res.1.stockTbl.length = wState.stockTbl.length ∧
      res.1.warehouseTbl = wState.warehouseTbl ∧
      res.1.customerTbl = wState.customerTbl ∧
      res.1.itemTbl = wState.itemTbl ∧
      res.1.historyTbl = wState.historyTbl) :=
  ⟨by decide, by decide,
    claim_C4 0 1 1 1 1 1 (fun _ => 1) (fun _ => 1) (fun _ => 5) wState wCustomer
      wWarehouse wDistrict (by decide) rfl rfl rfl (by decide)⟩

/-- A second stock row `(i_id 1, w_id 2)` so that a remote order line can
commit. -/
def wStock2 : SEntry17_IIISSSSSSSSSSIIIS :=
  ⟨1, 2, 30, "e01", "e02", "e03", "e04", "e05", "e06", "e07", "e08", "e09",
    "e10", 0, 0, 0, "plain"⟩

/-- The witness store extended with `wStock2` (used against claim C6). -/
def w6State : TpccState := { wState with stockTbl := [wStock, wStock2] }

/-- Counterexample for C6: a committing one-line `NewOrderTx` against
`w6State` whose single line is remote (`supply_w_id = 2 ≠ W = 1`) but
whose `all_local` input flag is 1.  The claim says the inserted order
row's `o_all_local` must be 0; the code stores `(x279 > 0)`, i.e. 1
(the last row of the order table below). -/
theorem claim_C6_cex :
    ((fun _ => (2 : Int)) 0 ≠ (1 : Int)) ∧
    (NewOrderTx 0 1 1 1 1 1 (fun _ => 1) (fun _ => 2) (fun _ => 5) w6State).map
      (fun r => (r.1.orderTbl.map (fun o => o._8)).getLast?) = some (some 1) :=
  ⟨by decide, rfl⟩

/-- Claim C6 (amended): the committing `NewOrderTx` sets the inserted
order row's `o_all_local` field to the truthy form of the **input flag**
(`1` iff `allLocal > 0`, else `0`), independently of whether any line's
`supply_w_id` differs from the input warehouse (the remote-line counter
`x419` of the source is dead code). -/
theorem claim_C6_amended (ts : TDate) (w d c : Int) (n : Nat) (allLocal : Int)
    (itemid supware quantity : Nat → Int) (s : TpccState)
    (cust : SEntry21_IIISSSSSSSSSTSDDDDIIS) (wh : SEntry9_ISSSSSSDD)
    (dist : SEntry11_IISSSSSSDDI)
    (hitems : ∀ i, i < n → (itemGet s.itemTbl (itemid i)).isSome)
    (hcust : customerGet s.customerTbl c d w = some cust)
    (hwh : warehouseGet s.warehouseTbl w = some wh)
    (hdist : districtGet s.districtTbl d w = some dist)
    (hstock : ∀ i, i < n → (stockGet s.stockTbl (itemid i) (supware i)).isSome) :
    ∃ res, NewOrderTx ts w d c n allLocal itemid supware quantity s = some res ∧
      res.1.orderTbl = s.orderTbl ++
        [⟨dist._11, d, w, c, ts, -1, (n : Int), if allLocal > 0 then 1 else 0⟩] := by
  have hok : (newOrderItemReads s.itemTbl itemid (List.range n) true NOOut.init).1 =
      true :=
    newOrderItemReads_ok _ _ _ _ (fun i hi => hitems i (List.mem_range.1 hi))
  obtain ⟨s2, out2, tot2, heq, _, _, _, _, _, _, ho2, _, _⟩ :=
    newOrderLines_spec w d dist._11 itemid supware quantity cust wh dist (List.range n)
      { s with
        districtTbl := updateFirst (fun e => e._1 == d && e._2 == w)
          (fun e => { e with _11 := e._11 + 1 }) s.districtTbl
        orderTbl := s.orderTbl ++
          [⟨dist._11, d, w, c, ts, -1, (n : Int), if allLocal > 0 then 1 else 0⟩]
        newOrderTbl := s.newOrderTbl ++ [⟨dist._11, d, w⟩] }
      (newOrderItemReads s.itemTbl itemid (List.range n) true NOOut.init).2 0
      (fun j hj => hstock j (List.mem_range.1 hj))
  refine ⟨(s2, out2), ?_, ?_⟩
  · simp only [NewOrderTx, hok, if_true, hcust, hwh, hdist, Option.pure_def,
      Option.bind_eq_bind, Option.some_bind]
    rw [heq]
    rfl
  · rw [ho2]

/-- Witness for the amended C6: the counterexample invocation commits and
its inserted order row carries `o_all_local = 1` from the flag. -/
theorem claim_C6_amended_witness :
    (∀ i, i < 1 → (itemGet w6State.itemTbl ((fun _ => (1 : Int)) i)).isSome) ∧
    (∃ res, NewOrderTx 0 1 1 1 1 1 (fun _ => 1) (fun _ => 2) (fun _ => 5) w6State =
        some res ∧
      res.1.orderTbl = w6State.orderTbl ++
        [⟨wDistrict._11, 1, 1, 1, 0, -1, ((1 : Nat) : Int),
          if (1 : Int) > 0 then 1 else 0⟩]) :=
  ⟨by decide,
    claim_C6_amended 0 1 1 1 1 1 (fun _ => 1) (fun _ => 2) (fun _ => 5) w6State
      wCustomer wWarehouse wDistrict (by decide) rfl rfl rfl (by decide)⟩

/-- Membership after an `unordered_set` insert. -/
theorem insertIfAbsent_mem (x y : Int) (l : List Int) :
    y ∈ insertIfAbsent x l ↔ y ∈ l ∨ y = x := by
  unfold insertIfAbsent
  by_cases hc : l.contains x
  · rw [if_pos hc]
    have hx : x ∈ l := by simpa using hc
    constructor
    · exact Or.inl
    · rintro (h | h)
      · exact h
      · rw [h]
        exact hx
  · rw [if_neg hc]
    simp

/-- An `unordered_set` insert keeps the element list duplicate-free. -/
theorem insertIfAbsent_nodup (x : Int) (l : List Int) (h : l.Nodup) :
    (insertIfAbsent x l).Nodup := by
  unfold insertIfAbsent
  by_cases hc : l.contains x
  · rw [if_pos hc]
    exact h
  · rw [if_neg hc]
    have hx : x ∉ l := by simpa using hc
    simp [List.nodup_append, h, hx]

/-- `i_id x` qualifies for the StockLevel count: its stock row at
warehouse `w` exists and its quantity is below the threshold. -/
def stockBelow (stockTbl : List SEntry17_IIISSSSSSSSSSIIIS) (w threshold x : Int) : Prop :=
  ∃ st, stockGet stockTbl x w = some st ∧ st._3 < threshold

/-- The inner slice loop of `StockLevelTx` over one `o_id`'s matching
order lines: it succeeds when every line's stock probe hits, keeps the
set duplicate-free, and its result holds exactly the old elements plus
the qualifying `ol_i_id`s of the lines. -/
theorem stockLevelLines_spec (w threshold : Int)
    (stockTbl : List SEntry17_IIISSSSSSSSSSIIIS) :
    ∀ (lines : List SEntry10_IIIIIITIDS) (acc : List Int),
      (∀ r ∈ lines, (stockGet stockTbl r._5 w).isSome) →
      ∃ acc', stockLevelLines w threshold stockTbl lines acc = some acc' ∧
        (acc.Nodup → acc'.Nodup) ∧
        ∀ x, x ∈ acc' ↔
          (x ∈ acc ∨ ∃ r ∈ lines, r._5 = x ∧ stockBelow stockTbl w threshold x) := by
  intro lines
  induction lines with
  | nil =>
    intro acc _
    refine ⟨acc, rfl, id, ?_⟩
    intro x
    simp
  | cons r rest ih =>
    intro acc hsome
    obtain ⟨st, hst⟩ :=
      Option.isSome_iff_exists.1 (hsome r (List.mem_cons_self r rest))
    have hstep : stockLevelLines w threshold stockTbl (r :: rest) acc =
        stockLevelLines w threshold stockTbl rest
          (if st._3 < threshold then insertIfAbsent r._5 acc else acc) := by
      simp only [stockLevelLines, hst, Option.some_bind]
      rfl
    obtain ⟨acc', heq, hnd, hmem⟩ :=
      ih (if st._3 < threshold then insertIfAbsent r._5 acc else acc)
        (fun r' hr' => hsome r' (List.mem_cons_of_mem _ hr'))
    refine ⟨acc', hstep.trans heq, ?_, ?_⟩
    · intro hnda
      apply hnd
      by_cases hq : st._3 < threshold
      · rw [if_pos hq]
        exact insertIfAbsent_nodup _ _ hnda
      · rw [if_neg hq]
        exact hnda
    · intro x
      rw [hmem x]
      by_cases hq : st._3 < threshold
      · rw [if_pos hq]
        rw [insertIfAbsent_mem]
        constructor
        · rintro ((h | h) | h)
          · exact Or.inl h
          · refine Or.inr ⟨r, List.mem_cons_self r rest, h.symm ▸ rfl, ?_⟩
            rw [h]
            exact ⟨st, hst, hq⟩
          · obtain ⟨r0, hr0, h5, hb⟩ := h
            exact Or.inr ⟨r0, List.mem_cons_of_mem _ hr0, h5, hb⟩
        · rintro (h | ⟨r0, hr0, h5, hb⟩)
          · exact Or.inl (Or.inl h)
          · rcases List.mem_cons.1 hr0 with hre | hrm
            · exact Or.inl (Or.inr (hre ▸ h5).symm)
            · exact Or.inr ⟨r0, hrm, h5, hb⟩
      · rw [if_neg hq]
        constructor
        · rintro (h | ⟨r0, hr0, h5, hb⟩)
          · exact Or.inl h
          · exact Or.inr ⟨r0, List.mem_cons_of_mem _ hr0, h5, hb⟩
        · rintro (h | ⟨r0, hr0, h5, hb⟩)
          · exact Or.inl h
          · rcases List.mem_cons.1 hr0 with hre | hrm
            · obtain ⟨st', hst', hlt'⟩ := hb
              rw [← h5, hre] at hst'
              rw [hst] at hst'
              cases hst'
              exact absurd hlt' hq
            · exact Or.inr ⟨r0, hrm, h5, hb⟩

/-- The outer `o_id` loop of `StockLevelTx`: fold of the slice loop over a
list of probed `o_id`s.  The resulting set holds the old elements plus
every qualifying `ol_i_id` of an order line keyed by a probed `o_id`. -/
theorem stockLevelOids_spec (w d threshold : Int) (s : TpccState)
    (hstock : ∀ r ∈ s.orderLineTbl, r._2 = d → r._3 = w →
      (stockGet s.stockTbl r._5 w).isSome) :
    ∀ (oids : List Int) (acc : List Int),
      ∃ acc', oids.foldlM
          (fun acc oid => stockLevelLines w threshold s.stockTbl
            (s.orderLineTbl.filter (olKey oid d w)) acc) acc = some acc' ∧
        (acc.Nodup → acc'.Nodup) ∧
        ∀ x, x ∈ acc' ↔ (x ∈ acc ∨ ∃ oid ∈ oids, ∃ r ∈ s.orderLineTbl,
          olKey oid d w r = true ∧ r._5 = x ∧ stockBelow s.stockTbl w threshold x) := by
  intro oids
  induction oids with
  | nil =>
    intro acc
    refine ⟨acc, rfl, id, ?_⟩
    intro x
    simp
  | cons oid rest ih =>
    intro acc
    obtain ⟨acc1, heq1, hnd1, hmem1⟩ :=
      stockLevelLines_spec w threshold s.stockTbl
        (s.orderLineTbl.filter (olKey oid d w)) acc
        (fun r hr => by
          have hrk := List.of_mem_filter hr
          simp only [olKey, Bool.and_eq_true, beq_iff_eq] at hrk
          exact hstock r (List.mem_of_mem_filter hr) hrk.1.2 hrk.2)
    obtain ⟨acc', heq, hnd, hmem⟩ := ih acc1
    refine ⟨acc', ?_, fun h => hnd (hnd1 h), ?_⟩
    · simp only [List.foldlM_cons, heq1, Option.bind_eq_bind, Option.some_bind]
      exact heq
    · intro x
      rw [hmem x, hmem1 x]
      constructor
      · rintro ((h | ⟨r0, hr0, h5, hb⟩) | ⟨oid0, ho0, r0, hr0, hk, h5, hb⟩)
        · exact Or.inl h
        · have hrk := List.of_mem_filter hr0
          exact Or.inr ⟨oid, List.mem_cons_self oid rest,
            r0, List.mem_of_mem_filter hr0, hrk, h5, hb⟩
        · exact Or.inr ⟨oid0, List.mem_cons_of_mem _ ho0, r0, hr0, hk, h5, hb⟩
      · rintro (h | ⟨oid0, ho0, r0, hr0, hk, h5, hb⟩)
        · exact Or.inl (Or.inl h)
        · rcases List.mem_cons.1 ho0 with hoe | hom
          · refine Or.inl (Or.inr ⟨r0, List.mem_filter.2 ⟨hr0, hoe ▸ hk⟩, h5, hb⟩)
          · exact Or.inr ⟨oid0, hom, r0, hr0, hk, h5, hb⟩

/-- The `o_id`s probed by `StockLevelTx` form exactly the integer
interval `[next_o_id − 20, next_o_id)`. -/
theorem stockLevel_oids_mem (nOid oid : Int) :
    oid ∈ intRange20 nOid ↔ (nOid - 20 ≤ oid ∧ oid < nOid) := by
  simp only [intRange20, List.mem_map, List.mem_range]
  constructor
  · rintro ⟨k, hk, rfl⟩
    omega
  · rintro ⟨h1, h2⟩
    exact ⟨(oid - (nOid - 20)).toNat, by omega, by omega⟩

/-- Claim C8 (amended): `StockLevelTx (w, d, threshold)` reads
`next_o_id` from district `(d, w)`, scans the order lines of **every**
`o_id` in `[next_o_id − 20, next_o_id)` — with no clamping of the lower
bound at 1 — counts the distinct `ol_i_id`s whose stock quantity at `w`
is strictly below the threshold, and mutates no table. -/
theorem claim_C8_amended (w d threshold : Int) (s : TpccState)
    (dist : SEntry11_IISSSSSSDDI)
    (hdist : districtGet s.districtTbl d w = some dist)
    (hstock : ∀ r ∈ s.orderLineTbl, r._2 = d → r._3 = w →
      (stockGet s.stockTbl r._5 w).isSome) :
    ∃ iids : List Int, StockLevelTx w d threshold s = some (s, iids.length) ∧
      iids.Nodup ∧
      ∀ x, x ∈ iids ↔ ∃ oid : Int, dist._11 - 20 ≤ oid ∧ oid < dist._11 ∧
        ∃ r ∈ s.orderLineTbl, olKey oid d w r = true ∧ r._5 = x ∧
          stockBelow s.stockTbl w threshold x := by
  obtain ⟨acc', heq, hnd, hmem⟩ :=
    stockLevelOids_spec w d threshold s hstock (intRange20 dist._11) []
  refine ⟨acc', ?_, hnd List.nodup_nil, ?_⟩
  · simp only [StockLevelTx, hdist, Option.pure_def, Option.bind_eq_bind,
      Option.some_bind]
    rw [heq]
    rfl
  · intro x
    rw [hmem x]
    constructor
    · rintro (h | ⟨oid, hoid, hrest⟩)
      · cases h
      · obtain ⟨h1, h2⟩ := (stockLevel_oids_mem dist._11 oid).1 hoid
        exact ⟨oid, h1, h2, hrest⟩
    · rintro ⟨oid, h1, h2, hrest⟩
      exact Or.inr ⟨oid, (stockLevel_oids_mem dist._11 oid).2 ⟨h1, h2⟩, hrest⟩

/-- An order line with `ol_o_id = 0` (used against claim C8's clamping). -/
def w8OrderLine : SEntry10_IIIIIITIDS :=
  ⟨0, 1, 1, 1, 1, 1, 0, 5, ((10 : Int) : ℚ), "d01"⟩

/-- The witness store with `w8OrderLine` as its only order line. -/
def w8State : TpccState := { wState with orderLineTbl := [w8OrderLine] }

/-- The StockLevel count as claim C8 words it (a second definition,
following the claim, for comparison with `StockLevelTx`): the scanned
range is `[next_o_id − 20, next_o_id)` but clamped to `[1, next_o_id)`
when `next_o_id < 20`. -/
def stockLevelClaimCount (w d threshold : Int) (s : TpccState) : Option Nat := do
  let dist ← districtGet s.districtTbl d w
  let nOid := dist._11
  let lo : Int := if nOid < 20 then 1 else nOid - 20
  let oids := (List.range (nOid - lo).toNat).map (fun (k : Nat) => lo + (k : Int))
  let set ← oids.foldlM
    (fun acc oid =>
      stockLevelLines w threshold s.stockTbl (s.orderLineTbl.filter (olKey oid d w))
        acc)
    ([] : List Int)
  return set.length

/-- Counterexample for C8: with `next_o_id = 5 < 20` and a (malformed but
representable) order line whose `o_id` is 0 pointing at stock below the
threshold, the code counts it — it scans the unclamped range
`[−15, 5)` — while the claim's clamped range `[1, 5)` yields 0. -/
theorem claim_C8_cex :
    wDistrict._11 < 20 ∧
    StockLevelTx 1 1 100 w8State = some (w8State, 1) ∧
    stockLevelClaimCount 1 1 100 w8State = some 0 :=
  ⟨by decide, rfl, rfl⟩

/-- Witness for the amended C8: against the well-formed witness store the
scan over `[−15, 5)` finds the one order line (`o_id = 3`), whose item 1
has stock 50 below threshold 100. -/
theorem claim_C8_amended_witness :
    districtGet wState.districtTbl 1 1 = some wDistrict ∧
    (∃ iids : List Int, StockLevelTx 1 1 100 wState = some (wState, iids.length) ∧
      iids.Nodup ∧
      ∀ x, x ∈ iids ↔ ∃ oid : Int, wDistrict._11 - 20 ≤ oid ∧ oid < wDistrict._11 ∧
        ∃ r ∈ wState.orderLineTbl, olKey oid 1 1 r = true ∧ r._5 = x ∧
          stockBelow wState.stockTbl 1 100 x) :=
  ⟨rfl, claim_C8_amended 1 1 100 wState wDistrict rfl (by decide)⟩
